import Mathlib

/-
Verification of the Period Comparison Aggregation Engine of the GA_Analysis
repository (campaign_analysis_final_version.py, campaign_analysis_merged.py,
campaign_analysis_duckdb.py).

The engine's tables are shallowly embedded as lists of records; dates are
integer day numbers; numeric metric values are rationals (the Python code
computes with exact integer sums divided by small integer divisors, so the
rational model captures the intended arithmetic).  Each aggregate SQL query
issued by the DuckDB versions, and each pandas filter-and-sum of the merged
version, is embedded as a filter/map/sum over the row list.
-/

/-- One row of the merged Google-Analytics events table: the configured
region column, the `Date` column (day number), the `Session source` column,
and the numeric `Sessions` column. -/
structure GARow where
  region : String
  date : Int
  source : String
  sessions : Rat
deriving DecidableEq

/-- One row of the Shopify commerce table: the configured region column,
the `Day` column (day number), and the numeric `Net sales` column. -/
structure ShopRow where
  region : String
  date : Int
  netSales : Rat
deriving DecidableEq

/-- A base or campaign window: a start day and an end day. -/
structure Period where
  startDate : Int
  endDate : Int
deriving DecidableEq

/-- Inclusive date-window test, embedding the SQL conjunct
`Date >= '{start}' AND Date <= '{end}'` (both ends inclusive). -/
def inWindow (p : Period) (d : Int) : Prop :=
  p.startDate ≤ d ∧ d ≤ p.endDate

instance (p : Period) (d : Int) : Decidable (inWindow p d) := by
  unfold inWindow; infer_instance

/-- Evaluation of one aggregate query `SELECT SUM(val) FROM tbl WHERE sel`:
sum of `val` over the rows satisfying `sel`.  A selection with no rows sums
to 0, matching SQL's `SUM(...)` after the code's `(result or 0)` guard. -/
def sumOver {α : Type} (tbl : List α) (sel : α → Prop) [DecidablePred sel]
    (val : α → Rat) : Rat :=
  ((tbl.filter fun r => decide (sel r)).map val).sum

/-- The UI option string selecting the Average policy, compared against
literally in all three source files. -/
def averageMethod : String := "Average (÷weeks)"

/-- The UI option string selecting the Sum policy. -/
def sumMethod : String := "Sum (Total)"

/-- Python's built-in `round`: nearest integer, ties to even. -/
def pyRound (q : Rat) : Int :=
  let f : Int := ⌊q⌋
  if q - f < 1 / 2 then f
  else if 1 / 2 < q - f then f + 1
  else if f % 2 = 0 then f else f + 1

/-- `calculate_weeks_in_period` of campaign_analysis_final_version.py
(lines 116-123) and campaign_analysis_duckdb.py (lines 122-129):
`days = (end - start).days + 1; weeks = days / 7; return max(1, round(weeks))`. -/
def calculate_weeks_in_period (start_date end_date : Int) : Int :=
  let days : Int := end_date - start_date + 1
  let weeks : Rat := (days : Rat) / 7
  max 1 (pyRound weeks)

/-- `calculate_weeks_in_period` of campaign_analysis_merged.py
(lines 120-126): `return max(1, weeks)` with `weeks = days / 7` NOT rounded,
so the result is a rational. -/
def weeks_in_period_merged (start_date end_date : Int) : Rat :=
  let days : Int := end_date - start_date + 1
  max 1 ((days : Rat) / 7)

/-- Base divisor of campaign_analysis_final_version.py (line 152):
`base_divisor = base_week_weeks` — always the week count; the
`base_week_method` parameter of `create_analysis_with_duckdb` is not
consulted.  The duckdb version (lines 160-161) is identical. -/
def base_divisor (base_week_method : String) (start_date end_date : Int) : Int :=
  calculate_weeks_in_period start_date end_date

/-- Base divisor of campaign_analysis_merged.py (lines 148-150):
`base1_divisor = base_week1_weeks if base_week_method == "Average (÷weeks)" else 1`. -/
def base_divisor_merged (base_week_method : String) (start_date end_date : Int) : Rat :=
  if base_week_method = averageMethod then weeks_in_period_merged start_date end_date
  else 1

/-- Campaign divisor of campaign_analysis_final_version.py (line 213):
`campaign_divisor = campaign_week_weeks if campaign_calculation_method ==
"Average (÷weeks)" else 1`.  campaign_analysis_duckdb.py line 162 applies
the same rule with its single policy knob (the radio labeled
"Campaign Period Calculation"). -/
def campaign_divisor (campaign_calculation_method : String)
    (start_date end_date : Int) : Int :=
  if campaign_calculation_method = averageMethod then
    calculate_weeks_in_period start_date end_date
  else 1

/-- Python's `f"{x:+.1f}"` on the exact value: an explicit sign followed by
the absolute value rounded to exactly one decimal digit. -/
def fmtSignedOneDec (q : Rat) : String :=
  let sign : String := if q < 0 then "-" else "+"
  let n : Nat := (pyRound (|q| * 10)).toNat
  sign ++ toString (n / 10) ++ "." ++ toString (n % 10)

/-- `calculate_percentage_change` (final_version lines 125-131, merged lines
128-134, duckdb lines 131-137): sentinel `"N/A"` for 0/0, sentinel `"∞"` for
a zero base and nonzero campaign, otherwise
`((campaign - base) / base) * 100` formatted `"+.1f"` with a `%` suffix. -/
def calculate_percentage_change (base_value campaign_value : Rat) : String :=
  if base_value = 0 then
    if campaign_value = 0 then "N/A" else "∞"
  else
    fmtSignedOneDec ((campaign_value - base_value) / base_value * 100) ++ "%"

/-- The google-sources row condition (final_version lines 155-156):
`"Session source" IN ('...')` when the whitelist is non-empty, and the
always-false predicate `1=0` when it is empty. -/
def googleFilter (google_sources : List String) (r : GARow) : Prop :=
  if google_sources.isEmpty then False else r.source ∈ google_sources

instance (gs : List String) (r : GARow) : Decidable (googleFilter gs r) := by
  unfold googleFilter; infer_instance

/-- Per-region GA totals query (final_version lines 165-173):
`SELECT SUM(Sessions) FROM ga_data WHERE "{region_column}" = '{region}'
AND Date >= ... AND Date <= ...`. -/
def gaTotalSum (tbl : List GARow) (region : String) (p : Period) : Rat :=
  sumOver tbl (fun r => r.region = region ∧ inWindow p r.date) (fun r => r.sessions)

/-- Per-region filtered (google) sessions of the same query:
`SUM(CASE WHEN {google_filter} THEN Sessions ELSE 0 END)`. -/
def gaGoogleSum (tbl : List GARow) (region : String) (p : Period)
    (google_sources : List String) : Rat :=
  sumOver tbl (fun r => r.region = region ∧ inWindow p r.date)
    (fun r => if googleFilter google_sources r then r.sessions else 0)

/-- Per-region Shopify revenue query (final_version lines 176-182):
`SELECT SUM("Net sales") ... WHERE "{shopify_region_column}" = '{region}'
AND Day >= ... AND Day <= ...`. -/
def shopifySum (tbl : List ShopRow) (region : String) (p : Period) : Rat :=
  sumOver tbl (fun r => r.region = region ∧ inWindow p r.date) (fun r => r.netSales)

/-- Filtered sessions of campaign_analysis_merged.py (lines 173-175):
`ga_region[ga_region['Session source'].isin(google_sources)]['Sessions'].sum()`
after the region and period filters. -/
def gaGoogleSumMerged (tbl : List GARow) (region : String) (p : Period)
    (google_sources : List String) : Rat :=
  sumOver tbl
    (fun r => r.region = region ∧ inWindow p r.date ∧ r.source ∈ google_sources)
    (fun r => r.sessions)

/-- `filter_data_by_period` of campaign_analysis_merged.py (lines 113-118):
rows whose date lies in the inclusive window. -/
def filter_data_by_period (tbl : List GARow) (start_date end_date : Int) :
    List GARow :=
  tbl.filter fun r => decide (start_date ≤ r.date ∧ r.date ≤ end_date)

/-- Control-set raw GA totals (final_version `process_control_regions_duckdb`,
lines 310-316): `SUM(CASE WHEN Date in window THEN Sessions ELSE 0 END)
FROM ga_data WHERE "{region_column}" IN ('controls...')`. -/
def controlTotalRaw (tbl : List GARow) (controls : List String) (p : Period) : Rat :=
  sumOver tbl (fun r => r.region ∈ controls)
    (fun r => if inWindow p r.date then r.sessions else 0)

/-- Control-set raw filtered (google) sessions, same query:
`SUM(CASE WHEN Date in window AND {google_filter} THEN Sessions ELSE 0 END)`. -/
def controlGoogleRaw (tbl : List GARow) (controls : List String) (p : Period)
    (google_sources : List String) : Rat :=
  sumOver tbl (fun r => r.region ∈ controls)
    (fun r => if inWindow p r.date ∧ googleFilter google_sources r then r.sessions else 0)

/-- Control-set raw revenue (final_version lines 319-324):
`SUM(CASE WHEN Day in window THEN "Net sales" ELSE 0 END) FROM shopify_data
WHERE "{shopify_region_column}" IN ('controls...')`. -/
def controlShopifyRaw (tbl : List ShopRow) (controls : List String) (p : Period) : Rat :=
  sumOver tbl (fun r => r.region ∈ controls)
    (fun r => if inWindow p r.date then r.netSales else 0)

/-- Emitted control-row value (final_version lines 331-333 and 377-379):
`(raw or 0) / (control_region_count * divisor)` — one division by the
product of the control-region count and the period divisor. -/
def controlValue (raw : Rat) (control_region_count : Nat) (divisor : Rat) : Rat :=
  raw / ((control_region_count : Rat) * divisor)

/-- Combined campaign value (final_version lines 261-269 for target regions
and 398-406 for the control set): the mean of the already-divided per-period
values under Average, their sum under Sum. -/
def combined_value (campaign_calculation_method : String) (values : List Rat) : Rat :=
  if campaign_calculation_method = averageMethod then
    values.sum / (values.length : Rat)
  else values.sum

/-- Per-period already-divided campaign values for one region (the loop of
final_version lines 206-247): for each campaign week, the raw period sum
divided by that week's campaign divisor. -/
def campaign_values (tbl : List GARow) (region : String) (ps : List Period)
    (campaign_calculation_method : String) : List Rat :=
  ps.map fun p =>
    gaTotalSum tbl region p /
      ((campaign_divisor campaign_calculation_method p.startDate p.endDate : Int) : Rat)

/-- Double-quote character, used by the f-string around column names. -/
def dqChar : Char := Char.ofNat 34

/-- Single-quote character, used by the f-string around the region label. -/
def sqChar : Char := Char.ofNat 39

/-- The interpolated WHERE fragment of final_version line 170,
`"{region_column}" = '{region}'`, built at character level exactly as the
f-string concatenates it: a double-quoted column name, ` = `, and the label
spliced verbatim between single quotes. -/
def regionFilterChars (col label : List Char) : List Char :=
  dqChar :: col ++ [dqChar, Char.ofNat 32, Char.ofNat 61, Char.ofNat 32, sqChar] ++
    label ++ [sqChar]

/-- Characters strictly before the first occurrence of `stop`, paired with
the characters after it; `none` when `stop` never occurs. -/
def takeUntil (stop : Char) : List Char → Option (List Char × List Char)
  | [] => none
  | c :: cs =>
    if c = stop then some ([], cs)
    else
      match takeUntil stop cs with
      | some (pre, rest) => some (c :: pre, rest)
      | none => none

/-- Parse of a WHERE fragment of the exact SQL shape
`"column" = 'literal'` (a double-quoted identifier, ` = `, a single-quoted
string literal, end of fragment).  Returns the identifier and the literal;
`none` models a query that no longer has this shape (a syntax error or a
differently-structured filter). -/
def parseRegionEq (s : List Char) : Option (List Char × List Char) :=
  match s with
  | [] => none
  | c :: cs =>
    if c = dqChar then
      match takeUntil dqChar cs with
      | none => none
      | some (col, rest) =>
        match rest with
        | a :: b :: c2 :: q :: rest2 =>
          if a = Char.ofNat 32 ∧ b = Char.ofNat 61 ∧ c2 = Char.ofNat 32 ∧ q = sqChar then
            match takeUntil sqChar rest2 with
            | some (lit, []) => some (col, lit)
            | _ => none
          else none
        | _ => none
    else none

/-- Execution of the region WHERE fragment against a table: when the
fragment parses as an equality against a literal, select exactly the rows
whose region equals that literal; a parse failure is a query error (`none`). -/
def runRegionFilter (fragment : List Char) (tbl : List GARow) :
    Option (List GARow) :=
  match parseRegionEq fragment with
  | some (_, lit) => some (tbl.filter fun r => r.region == String.mk lit)
  | none => none

/-- A small concrete events table used by witnesses: region `East` with 100
sessions (source google) on day 0 and 600 sessions (source bing) on day 10,
region `West` with 50 sessions on day 1. -/
def sampleGA : List GARow :=
  [⟨"East", 0, "google", 100⟩, ⟨"East", 10, "bing", 600⟩, ⟨"West", 1, "google", 50⟩]

/-- A small concrete commerce table used by witnesses. -/
def sampleShop : List ShopRow :=
  [⟨"East", 0, 1000⟩, ⟨"West", 1, 300⟩]

/-- A one-week window, days 0 through 6. -/
def periodA : Period := ⟨0, 6⟩

/-- A two-week window, days 7 through 20. -/
def periodB : Period := ⟨7, 20⟩

/-- An empty table sums to 0. -/
theorem sumOver_nil {α : Type} (sel : α → Prop) [DecidablePred sel]
    (val : α → Rat) : sumOver ([] : List α) sel val = 0 := rfl

/-- One row contributes its value when selected and 0 otherwise. -/
theorem sumOver_cons {α : Type} (r : α) (tl : List α) (sel : α → Prop)
    [DecidablePred sel] (val : α → Rat) :
    sumOver (r :: tl) sel val = (if sel r then val r else 0) + sumOver tl sel val := by
  by_cases h : sel r <;> simp [sumOver, List.filter_cons, h]

/-- Pointwise equivalent selections produce the same sum. -/
theorem sumOver_congr {α : Type} (tbl : List α) (s1 s2 : α → Prop)
    [DecidablePred s1] [DecidablePred s2] (val : α → Rat)
    (h : ∀ r, s1 r ↔ s2 r) : sumOver tbl s1 val = sumOver tbl s2 val := by
  unfold sumOver
  rw [List.filter_congr (fun a _ => decide_eq_decide.mpr (h a))]

/-- A CASE-conditional value can be folded into the WHERE selection:
`SUM(CASE WHEN c THEN v ELSE 0 END) ... WHERE sel` equals
`SUM(v) ... WHERE sel AND c`. -/
theorem sumOver_case {α : Type} (tbl : List α) (sel c : α → Prop)
    [DecidablePred sel] [DecidablePred c] (val : α → Rat) :
    sumOver tbl sel (fun r => if c r then val r else 0)
      = sumOver tbl (fun r => sel r ∧ c r) val := by
  induction tbl with
  | nil => rfl
  | cons r tl ih =>
    rw [sumOver_cons, sumOver_cons, ih]
    by_cases h1 : sel r <;> by_cases h2 : c r <;> simp [h1, h2]

/-- A selection satisfied by no row sums to 0. -/
theorem sumOver_of_not {α : Type} (tbl : List α) (sel : α → Prop)
    [DecidablePred sel] (val : α → Rat)
    (h : ∀ r, ¬ sel r) : sumOver tbl sel val = 0 := by
  induction tbl with
  | nil => rfl
  | cons r tl ih => rw [sumOver_cons, ih]; simp [h r]

/-- A sum over a disjunction of disjoint selections splits into two sums. -/
theorem sumOver_or {α : Type} (tbl : List α) (a b : α → Prop)
    [DecidablePred a] [DecidablePred b] (val : α → Rat)
    (h : ∀ r, a r → ¬ b r) :
    sumOver tbl (fun r => a r ∨ b r) val
      = sumOver tbl a val + sumOver tbl b val := by
  induction tbl with
  | nil => simp [sumOver_nil]
  | cons r tl ih =>
    rw [sumOver_cons, sumOver_cons, sumOver_cons, ih]
    by_cases ha : a r
    · have hb := h r ha
      simp only [ha, hb, true_or, if_true, if_false, or_false]
      ring
    · by_cases hb : b r <;> simp only [ha, hb, false_or, if_true, if_false] <;> ring

/-- Enlarging the selection cannot decrease the sum of nonnegative values. -/
theorem sumOver_mono {α : Type} (tbl : List α) (s1 s2 : α → Prop)
    [DecidablePred s1] [DecidablePred s2] (val : α → Rat)
    (hval : ∀ r ∈ tbl, 0 ≤ val r) (himp : ∀ r, s1 r → s2 r) :
    sumOver tbl s1 val ≤ sumOver tbl s2 val := by
  induction tbl with
  | nil => simp [sumOver_nil]
  | cons r tl ih =>
    rw [sumOver_cons, sumOver_cons]
    have h0 : 0 ≤ val r := hval r (by simp)
    have ih' := ih fun x hx => hval x (by simp [hx])
    have hrow : (if s1 r then val r else 0) ≤ (if s2 r then val r else 0) := by
      by_cases h1 : s1 r
      · simp [h1, himp r h1]
      · by_cases h2 : s2 r <;> simp [h1, h2, h0]
    exact add_le_add hrow ih'

/-- Summing over rows whose key lies in a duplicate-free list of labels
equals the sum, over those labels, of the per-label sums. -/
theorem sumOver_key_mem {α : Type} (key : α → String) (controls : List String)
    (tbl : List α) (q : α → Prop) [DecidablePred q] (val : α → Rat) :
    controls.Nodup →
      sumOver tbl (fun r => key r ∈ controls ∧ q r) val
        = (controls.map fun c => sumOver tbl (fun r => key r = c ∧ q r) val).sum := by
  induction controls with
  | nil =>
    intro _
    simp only [List.map_nil, List.sum_nil]
    exact sumOver_of_not tbl _ val (by simp)
  | cons c cs ih =>
    intro h
    have hc : c ∉ cs := (List.nodup_cons.mp h).1
    have hcs : cs.Nodup := (List.nodup_cons.mp h).2
    rw [List.map_cons, List.sum_cons, ← ih hcs]
    rw [← sumOver_or tbl (fun r => key r = c ∧ q r) (fun r => key r ∈ cs ∧ q r) val
      (by rintro r ⟨hk, -⟩ ⟨hm, -⟩; exact hc (hk ▸ hm))]
    exact sumOver_congr tbl _ _ val fun r => by
      constructor
      · rintro ⟨hm, hq⟩
        rcases List.mem_cons.mp hm with h1 | h1
        · exact Or.inl ⟨h1, hq⟩
        · exact Or.inr ⟨h1, hq⟩
      · rintro (⟨h1, hq⟩ | ⟨h1, hq⟩)
        · exact ⟨List.mem_cons.mpr (Or.inl h1), hq⟩
        · exact ⟨List.mem_cons.mpr (Or.inr h1), hq⟩

/-- Dividing each summand by a common divisor divides the sum by it. -/
theorem sum_map_div (l : List String) (f : String → Rat) (d : Rat) :
    (l.map fun c => f c / d).sum = (l.map f).sum / d := by
  induction l with
  | nil => simp
  | cons c cs ih => simp [List.map_cons, List.sum_cons, ih, add_div]

/-- Rounding a nonpositive rational to the nearest integer stays nonpositive. -/
theorem pyRound_nonpos (q : Rat) (h : q ≤ 0) : pyRound q ≤ 0 := by
  simp only [pyRound]
  have hf : ⌊q⌋ ≤ 0 := by
    have := Int.floor_le_floor (α := Rat) h
    simpa using this
  split_ifs with h1 h2 h3
  · exact hf
  · have hq : (⌊q⌋ : Rat) ≤ q - 1 / 2 := by linarith
    have hneg : (⌊q⌋ : Rat) < 0 := by linarith
    have : ⌊q⌋ < 0 := by exact_mod_cast hneg
    omega
  · exact hf
  · have hhalf : (1 : Rat) / 2 ≤ q - ⌊q⌋ := le_of_not_lt h1
    have hneg : (⌊q⌋ : Rat) < 0 := by linarith
    have : ⌊q⌋ < 0 := by exact_mod_cast hneg
    omega

/-- C2 (amended): in campaign_analysis_final_version.py (and the duckdb
version) the base divisor equals the base period's week count for every
configured policy string; in campaign_analysis_merged.py the base divisor
equals the (unrounded) week count only under the Average policy and is 1
under the Sum policy. -/
theorem base_divisor_policy (base_week_method : String) (s e : Int) :
    base_divisor base_week_method s e = calculate_weeks_in_period s e
  ∧ base_divisor_merged averageMethod s e = weeks_in_period_merged s e
  ∧ base_divisor_merged sumMethod s e = 1 := by
  refine ⟨rfl, ?_, ?_⟩
  · unfold base_divisor_merged
    rw [if_pos rfl]
  · unfold base_divisor_merged
    rw [if_neg (by decide)]

/-- C2 counterexample: for a 14-day base period under the Sum policy,
campaign_analysis_merged.py applies divisor 1, not the week count 2 — the
configured policy does change the base divisor there. -/
theorem base_divisor_merged_sum_counterexample :
    base_divisor_merged sumMethod 0 13 ≠ weeks_in_period_merged 0 13 := by
  have hL : base_divisor_merged sumMethod 0 13 = 1 := by
    unfold base_divisor_merged
    rw [if_neg (by decide)]
  have hR : weeks_in_period_merged 0 13 = 2 := by
    unfold weeks_in_period_merged
    norm_num
  rw [hL, hR]
  norm_num

/-- C3 (amended): in campaign_analysis_final_version.py and the duckdb
version the derived week count equals max(1, round(inclusive_day_span / 7))
and a 1-day period yields 1; campaign_analysis_merged.py leaves the span
unrounded (its 1-day period still yields 1). -/
theorem week_count_formula (s e : Int) (h : s ≤ e) :
    calculate_weeks_in_period s e = max 1 (pyRound (((e - s + 1 : Int) : Rat) / 7))
  ∧ calculate_weeks_in_period s s = 1
  ∧ weeks_in_period_merged s s = 1 := by
  refine ⟨rfl, ?_, ?_⟩
  · simp only [calculate_weeks_in_period]
    have h1 : s - s + 1 = (1 : Int) := by ring
    rw [h1]
    have hpy : pyRound (((1 : Int) : Rat) / 7) = 0 := by
      simp only [pyRound]
      have hfl : ⌊((1 : Int) : Rat) / 7⌋ = 0 := by norm_num
      rw [hfl]
      rw [if_pos (by norm_num)]
    rw [hpy]
    exact max_eq_left (by norm_num)
  · simp only [weeks_in_period_merged]
    have h1 : s - s + 1 = (1 : Int) := by ring
    rw [h1]
    exact max_eq_left (by norm_num : ((1 : Int) : Rat) / 7 ≤ 1)

/-- C3 counterexample: a 10-day period.  The rounded formula gives
max(1, round(10/7)) = 1, but campaign_analysis_merged.py derives the
unrounded 10/7. -/
theorem week_count_merged_counterexample :
    weeks_in_period_merged 0 9 ≠ ((max 1 (pyRound ((10 : Rat) / 7)) : Int) : Rat) := by
  have hL : weeks_in_period_merged 0 9 = 10 / 7 := by
    simp only [weeks_in_period_merged]
    norm_num
  have hpy : pyRound ((10 : Rat) / 7) = 1 := by
    simp only [pyRound]
    have hfl : ⌊(10 : Rat) / 7⌋ = 1 := by norm_num
    rw [hfl]
    rw [if_pos (by norm_num)]
  rw [hL, hpy]
  norm_num

/-- C3 witness: a 14-day period with the rounded formula, and the 1-day
period cases, at concrete dates. -/
theorem week_count_formula_witness :
    ((0 : Int) ≤ 13) ∧
      (calculate_weeks_in_period 0 13 = max 1 (pyRound (((13 - 0 + 1 : Int) : Rat) / 7))
        ∧ calculate_weeks_in_period 0 0 = 1
        ∧ weeks_in_period_merged 0 0 = 1) :=
  ⟨by norm_num, week_count_formula 0 13 (by norm_num)⟩

/-- C4: the campaign divisor is 1 under the Sum policy and the period's
week count under the Average policy, for every campaign period. -/
theorem campaign_divisor_policy (s e : Int) :
    campaign_divisor sumMethod s e = 1
  ∧ campaign_divisor averageMethod s e = calculate_weeks_in_period s e := by
  constructor
  · unfold campaign_divisor
    rw [if_neg (by decide)]
  · unfold campaign_divisor
    rw [if_pos rfl]

/-- C5: the change calculator returns the not-applicable sentinel at (0,0),
the infinite-increase sentinel at (0, x) for x ≠ 0, and otherwise the
sign-explicit one-decimal formatting of ((campaign − base) / base) · 100;
these three branches cover all real inputs.  Includes the spec's concrete
format checks change(100,150) = "+50.0%" and change(100,50) = "-50.0%". -/
theorem percentage_change_spec :
    calculate_percentage_change 0 0 = "N/A"
  ∧ (∀ x : Rat, x ≠ 0 → calculate_percentage_change 0 x = "∞")
  ∧ (∀ b c : Rat, b ≠ 0 →
      calculate_percentage_change b c = fmtSignedOneDec ((c - b) / b * 100) ++ "%")
  ∧ calculate_percentage_change 100 150 = "+50.0%"
  ∧ calculate_percentage_change 100 50 = "-50.0%" := by
  have hpy : pyRound (500 : Rat) = 500 := by
    simp only [pyRound]
    rw [show ⌊(500 : Rat)⌋ = 500 by norm_num]
    rw [if_pos (by norm_num)]
  have hplus : fmtSignedOneDec (50 : Rat) = "+50.0" := by
    simp only [fmtSignedOneDec]
    rw [if_neg (by norm_num : ¬(50 : Rat) < 0)]
    rw [show |(50 : Rat)| * 10 = 500 by norm_num]
    rw [hpy]
    rfl
  have hminus : fmtSignedOneDec (-50 : Rat) = "-50.0" := by
    simp only [fmtSignedOneDec]
    rw [if_pos (by norm_num : (-50 : Rat) < 0)]
    rw [show |(-50 : Rat)| * 10 = 500 by norm_num]
    rw [hpy]
    rfl
  refine ⟨?_, ?_, ?_, ?_, ?_⟩
  · simp [calculate_percentage_change]
  · intro x hx
    simp [calculate_percentage_change, hx]
  · intro b c hb
    simp [calculate_percentage_change, hb]
  · simp only [calculate_percentage_change]
    rw [if_neg (by norm_num : ¬(100 : Rat) = 0)]
    rw [show ((150 : Rat) - 100) / 100 * 100 = 50 by norm_num, hplus]
    rfl
  · simp only [calculate_percentage_change]
    rw [if_neg (by norm_num : ¬(100 : Rat) = 0)]
    rw [show ((50 : Rat) - 100) / 100 * 100 = -50 by norm_num, hminus]
    rfl

/-- C5 witness: the infinite-increase branch and the formatted branch,
each applied at a concrete nonzero input. -/
theorem percentage_change_spec_witness :
    ((7 : Rat) ≠ 0) ∧ calculate_percentage_change 0 7 = "∞" :=
  ⟨by norm_num, percentage_change_spec.2.1 7 (by norm_num)⟩

/-- C8: an empty source whitelist makes the filtered-visits metric 0 for
every table, region and period, in both the SQL CASE form (final_version,
where the empty whitelist becomes the predicate 1=0) and the pandas isin
form (merged). -/
theorem empty_whitelist_filtered_zero (tbl : List GARow) (region : String)
    (p : Period) :
    gaGoogleSum tbl region p [] = 0 ∧ gaGoogleSumMerged tbl region p [] = 0 := by
  constructor
  · unfold gaGoogleSum
    rw [sumOver_case]
    apply sumOver_of_not
    rintro r ⟨-, hg⟩
    simp [googleFilter] at hg
  · unfold gaGoogleSumMerged
    apply sumOver_of_not
    rintro r ⟨-, -, hm⟩
    simp at hm

/-- C10: with nonnegative visit counts, the filtered-visits sum never
exceeds the total-visits sum for the same region and period, in both the
SQL CASE form and the pandas isin form. -/
theorem filtered_le_total (tbl : List GARow) (region : String) (p : Period)
    (gs : List String) (h : ∀ r ∈ tbl, 0 ≤ r.sessions) :
    gaGoogleSum tbl region p gs ≤ gaTotalSum tbl region p
  ∧ gaGoogleSumMerged tbl region p gs ≤ gaTotalSum tbl region p := by
  constructor
  · unfold gaGoogleSum gaTotalSum
    rw [sumOver_case]
    exact sumOver_mono tbl _ _ _ h fun r hr => hr.1
  · unfold gaGoogleSumMerged gaTotalSum
    exact sumOver_mono tbl _ _ _ h fun r hr => ⟨hr.1, hr.2.1⟩

/-- C10 witness: the comparison at the concrete sample table. -/
theorem filtered_le_total_witness :
    (∀ r ∈ sampleGA, 0 ≤ r.sessions) ∧
      (gaGoogleSum sampleGA "East" periodA ["google"] ≤ gaTotalSum sampleGA "East" periodA
        ∧ gaGoogleSumMerged sampleGA "East" periodA ["google"] ≤ gaTotalSum sampleGA "East" periodA) :=
  ⟨by
    intro r hr
    simp only [sampleGA, List.mem_cons, List.not_mem_nil, or_false] at hr
    rcases hr with rfl | rfl | rfl <;> norm_num,
    filtered_le_total sampleGA "East" periodA ["google"] (by
      intro r hr
      simp only [sampleGA, List.mem_cons, List.not_mem_nil, or_false] at hr
      rcases hr with rfl | rfl | rfl <;> norm_num)⟩

/-- C9: a period whose end precedes its start still yields week count 1 in
both week calculators, its inclusive date filter selects no rows, and every
metric evaluates to 0 — no branch of the engine is left undefined. -/
theorem inverted_period_safe (s e : Int) (h : e < s) :
    calculate_weeks_in_period s e = 1
  ∧ weeks_in_period_merged s e = 1
  ∧ (∀ tbl : List GARow, filter_data_by_period tbl s e = [])
  ∧ (∀ (tbl : List GARow) (region : String) (gs : List String),
      gaTotalSum tbl region ⟨s, e⟩ = 0 ∧ gaGoogleSum tbl region ⟨s, e⟩ gs = 0)
  ∧ ∀ (tbl : List ShopRow) (region : String), shopifySum tbl region ⟨s, e⟩ = 0 := by
  have hdays : ((e - s + 1 : Int) : Rat) ≤ 0 := by
    have hz : e - s + 1 ≤ 0 := by omega
    exact_mod_cast hz
  have hq : ((e - s + 1 : Int) : Rat) / 7 ≤ 0 :=
    div_nonpos_iff.mpr (Or.inr ⟨hdays, by norm_num⟩)
  refine ⟨?_, ?_, ?_, ?_, ?_⟩
  · simp only [calculate_weeks_in_period]
    exact max_eq_left (le_trans (pyRound_nonpos _ hq) (by norm_num))
  · simp only [weeks_in_period_merged]
    exact max_eq_left (le_trans hq (by norm_num))
  · intro tbl
    apply List.filter_eq_nil_iff.mpr
    intro r _
    simp only [decide_eq_true_eq, not_and]
    intro h1 h2
    omega
  · intro tbl region gs
    constructor
    · apply sumOver_of_not
      rintro r ⟨-, hw⟩
      have hw2 : s ≤ r.date ∧ r.date ≤ e := hw
      omega
    · apply sumOver_of_not
      rintro r ⟨-, hw⟩
      have hw2 : s ≤ r.date ∧ r.date ≤ e := hw
      omega
  · intro tbl region
    apply sumOver_of_not
    rintro r ⟨-, hw⟩
    have hw2 : s ≤ r.date ∧ r.date ≤ e := hw
    omega

/-- C9 witness: the inverted period from day 2 to day 0. -/
theorem inverted_period_safe_witness :
    ((0 : Int) < 2) ∧
      (calculate_weeks_in_period 2 0 = 1
        ∧ weeks_in_period_merged 2 0 = 1
        ∧ (∀ tbl : List GARow, filter_data_by_period tbl 2 0 = [])
        ∧ (∀ (tbl : List GARow) (region : String) (gs : List String),
            gaTotalSum tbl region ⟨2, 0⟩ = 0 ∧ gaGoogleSum tbl region ⟨2, 0⟩ gs = 0)
        ∧ ∀ (tbl : List ShopRow) (region : String), shopifySum tbl region ⟨2, 0⟩ = 0) :=
  ⟨by norm_num, inverted_period_safe 2 0 (by norm_num)⟩

/-- The control-set IN-query raw total equals the sum of the per-region
raw totals, for a duplicate-free control list. -/
theorem control_total_raw_eq (ga : List GARow) (controls : List String)
    (p : Period) (hnd : controls.Nodup) :
    controlTotalRaw ga controls p = (controls.map fun c => gaTotalSum ga c p).sum := by
  unfold controlTotalRaw gaTotalSum
  rw [sumOver_case]
  exact sumOver_key_mem (fun r => r.region) controls ga
    (fun r => inWindow p r.date) (fun r => r.sessions) hnd

/-- The control-set IN-query raw filtered total equals the sum of the
per-region raw filtered totals, for a duplicate-free control list. -/
theorem control_google_raw_eq (ga : List GARow) (controls : List String)
    (p : Period) (gs : List String) (hnd : controls.Nodup) :
    controlGoogleRaw ga controls p gs
      = (controls.map fun c => gaGoogleSum ga c p gs).sum := by
  unfold controlGoogleRaw
  rw [sumOver_case]
  rw [sumOver_key_mem (fun r => r.region) controls ga
    (fun r => inWindow p r.date ∧ googleFilter gs r) (fun r => r.sessions) hnd]
  have hc : ∀ c : String,
      sumOver ga (fun r => r.region = c ∧ (inWindow p r.date ∧ googleFilter gs r))
          (fun r => r.sessions)
        = gaGoogleSum ga c p gs := by
    intro c
    unfold gaGoogleSum
    rw [sumOver_case]
    exact sumOver_congr _ _ _ _ fun r => by tauto
  simp only [hc]

/-- The control-set IN-query raw revenue equals the sum of the per-region
raw revenues, for a duplicate-free control list. -/
theorem control_shopify_raw_eq (shop : List ShopRow) (controls : List String)
    (p : Period) (hnd : controls.Nodup) :
    controlShopifyRaw shop controls p
      = (controls.map fun c => shopifySum shop c p).sum := by
  unfold controlShopifyRaw shopifySum
  rw [sumOver_case]
  exact sumOver_key_mem (fun r => r.region) controls shop
    (fun r => inWindow p r.date) (fun r => r.netSales) hnd

/-- Dividing a sum of per-region values once by (count × divisor) is the
same as averaging the per-region values already divided by the divisor —
the divisor is shared, so the two factor through each other. -/
theorem controlValue_mean (S : Rat) (f : String → Rat) (controls : List String)
    (d : Rat) (hS : S = (controls.map f).sum) :
    controlValue S controls.length d
      = (controls.map fun c => f c / d).sum / (controls.length : Rat) := by
  subst hS
  unfold controlValue
  rw [sum_map_div, div_div, mul_comm]

/-- C1 (amended): for every non-empty duplicate-free control list, period
and metric, the emitted control-row value is the sum of the raw
(undivided) per-region sums divided once by (control_region_count ×
divisor); and because the divisor is shared by all control regions this
value coincides — for every input, not merely some — with the arithmetic
mean of the per-region already-divided values. -/
theorem control_value_eq_sum_raw_div (ga : List GARow) (shop : List ShopRow)
    (controls : List String) (p : Period) (gs : List String) (d : Rat)
    (hne : controls ≠ []) (hnd : controls.Nodup) :
    (controlValue (controlTotalRaw ga controls p) controls.length d
        = (controls.map fun c => gaTotalSum ga c p).sum / ((controls.length : Rat) * d))
  ∧ (controlValue (controlGoogleRaw ga controls p gs) controls.length d
        = (controls.map fun c => gaGoogleSum ga c p gs).sum / ((controls.length : Rat) * d))
  ∧ (controlValue (controlShopifyRaw shop controls p) controls.length d
        = (controls.map fun c => shopifySum shop c p).sum / ((controls.length : Rat) * d))
  ∧ (controlValue (controlTotalRaw ga controls p) controls.length d
        = (controls.map fun c => gaTotalSum ga c p / d).sum / (controls.length : Rat))
  ∧ (controlValue (controlGoogleRaw ga controls p gs) controls.length d
        = (controls.map fun c => gaGoogleSum ga c p gs / d).sum / (controls.length : Rat))
  ∧ (controlValue (controlShopifyRaw shop controls p) controls.length d
        = (controls.map fun c => shopifySum shop c p / d).sum / (controls.length : Rat)) := by
  refine ⟨?_, ?_, ?_, ?_, ?_, ?_⟩
  · rw [control_total_raw_eq ga controls p hnd]
    rfl
  · rw [control_google_raw_eq ga controls p gs hnd]
    rfl
  · rw [control_shopify_raw_eq shop controls p hnd]
    rfl
  · exact controlValue_mean _ _ controls d (control_total_raw_eq ga controls p hnd)
  · exact controlValue_mean _ _ controls d (control_google_raw_eq ga controls p gs hnd)
  · exact controlValue_mean _ _ controls d (control_shopify_raw_eq shop controls p hnd)

/-- C1 counterexample: the claim's "must differ" half is false — there is
no input at all (table, non-empty duplicate-free control list, period,
divisor) on which the emitted control value differs from the arithmetic
mean of the per-region already-divided values, because the divisor is the
same for every control region. -/
theorem control_value_never_differs_from_mean :
    ¬ ∃ (ga : List GARow) (controls : List String) (p : Period) (d : Rat),
        controls ≠ [] ∧ controls.Nodup ∧
        controlValue (controlTotalRaw ga controls p) controls.length d
          ≠ (controls.map fun c => gaTotalSum ga c p / d).sum / (controls.length : Rat) := by
  rintro ⟨ga, controls, p, d, -, hnd, hne⟩
  exact hne (controlValue_mean _ _ controls d (control_total_raw_eq ga controls p hnd))

/-- C1 witness: the control aggregation at a concrete two-region control
set with unequal per-region volumes and divisor 2. -/
theorem control_value_eq_sum_raw_div_witness :
    ((["East", "West"] : List String) ≠ [])
  ∧ (["East", "West"] : List String).Nodup
  ∧ ((controlValue (controlTotalRaw sampleGA ["East", "West"] periodA)
          (["East", "West"] : List String).length 2
        = ((["East", "West"] : List String).map fun c => gaTotalSum sampleGA c periodA).sum
            / (((["East", "West"] : List String).length : Rat) * 2))
    ∧ (controlValue (controlGoogleRaw sampleGA ["East", "West"] periodA ["google"])
          (["East", "West"] : List String).length 2
        = ((["East", "West"] : List String).map fun c => gaGoogleSum sampleGA c periodA ["google"]).sum
            / (((["East", "West"] : List String).length : Rat) * 2))
    ∧ (controlValue (controlShopifyRaw sampleShop ["East", "West"] periodA)
          (["East", "West"] : List String).length 2
        = ((["East", "West"] : List String).map fun c => shopifySum sampleShop c periodA).sum
            / (((["East", "West"] : List String).length : Rat) * 2))
    ∧ (controlValue (controlTotalRaw sampleGA ["East", "West"] periodA)
          (["East", "West"] : List String).length 2
        = ((["East", "West"] : List String).map fun c => gaTotalSum sampleGA c periodA / 2).sum
            / (((["East", "West"] : List String).length : Rat)))
    ∧ (controlValue (controlGoogleRaw sampleGA ["East", "West"] periodA ["google"])
          (["East", "West"] : List String).length 2
        = ((["East", "West"] : List String).map fun c => gaGoogleSum sampleGA c periodA ["google"] / 2).sum
            / (((["East", "West"] : List String).length : Rat)))
    ∧ (controlValue (controlShopifyRaw sampleShop ["East", "West"] periodA)
          (["East", "West"] : List String).length 2
        = ((["East", "West"] : List String).map fun c => shopifySum sampleShop c periodA / 2).sum
            / (((["East", "West"] : List String).length : Rat)))) :=
  ⟨by decide, by decide,
    control_value_eq_sum_raw_div sampleGA sampleShop ["East", "West"] periodA
      ["google"] 2 (by decide) (by decide)⟩

/-- C6: for a non-empty list of already-divided per-period campaign values,
the Combined value is the arithmetic sum under the Sum policy and the
arithmetic mean under the Average policy — the mean of the per-period rates,
not a week-weighted recombination.  Includes the spec's [100, 300] example
and a run of the per-region pipeline on the sample table, whose Combined
Average (200) differs from the week-weighted alternative (700/3). -/
theorem combined_value_spec (values : List Rat) (h : values ≠ []) :
    combined_value sumMethod values = values.sum
  ∧ combined_value averageMethod values = values.sum / (values.length : Rat)
  ∧ combined_value averageMethod [100, 300] = 200
  ∧ combined_value sumMethod [100, 300] = 400
  ∧ campaign_values sampleGA "East" [periodA, periodB] averageMethod = [100, 300]
  ∧ combined_value averageMethod (campaign_values sampleGA "East" [periodA, periodB] averageMethod)
      ≠ (gaTotalSum sampleGA "East" periodA + gaTotalSum sampleGA "East" periodB)
        / ((calculate_weeks_in_period periodA.startDate periodA.endDate
            + calculate_weeks_in_period periodB.startDate periodB.endDate : Int) : Rat) := by
  have hpy1 : pyRound (1 : Rat) = 1 := by
    simp only [pyRound]
    rw [show ⌊(1 : Rat)⌋ = 1 by norm_num]
    rw [if_pos (by norm_num)]
  have hpy2 : pyRound (2 : Rat) = 2 := by
    simp only [pyRound]
    rw [show ⌊(2 : Rat)⌋ = 2 by norm_num]
    rw [if_pos (by norm_num)]
  have hwA : calculate_weeks_in_period 0 6 = 1 := by
    simp only [calculate_weeks_in_period]
    rw [show ((6 - 0 + 1 : Int) : Rat) / 7 = 1 by norm_num]
    rw [hpy1]
    norm_num
  have hwB : calculate_weeks_in_period 7 20 = 2 := by
    simp only [calculate_weeks_in_period]
    rw [show ((20 - 7 + 1 : Int) : Rat) / 7 = 2 by norm_num]
    rw [hpy2]
    norm_num
  have hdA : campaign_divisor averageMethod 0 6 = 1 := by
    unfold campaign_divisor
    rw [if_pos rfl, hwA]
  have hdB : campaign_divisor averageMethod 7 20 = 2 := by
    unfold campaign_divisor
    rw [if_pos rfl, hwB]
  have hgaA : gaTotalSum sampleGA "East" periodA = 100 := by
    simp [gaTotalSum, sumOver, sampleGA, periodA, inWindow, List.filter]
  have hgaB : gaTotalSum sampleGA "East" periodB = 600 := by
    simp [gaTotalSum, sumOver, sampleGA, periodB, inWindow, List.filter]
  have hvals : campaign_values sampleGA "East" [periodA, periodB] averageMethod = [100, 300] := by
    unfold campaign_values
    simp only [List.map_cons, List.map_nil]
    rw [show periodA.startDate = 0 from rfl, show periodA.endDate = 6 from rfl,
        show periodB.startDate = 7 from rfl, show periodB.endDate = 20 from rfl]
    rw [hgaA, hgaB, hdA, hdB]
    norm_num
  refine ⟨?_, ?_, ?_, ?_, hvals, ?_⟩
  · unfold combined_value
    rw [if_neg (by decide)]
  · unfold combined_value
    rw [if_pos rfl]
  · unfold combined_value
    rw [if_pos rfl]
    norm_num
  · unfold combined_value
    rw [if_neg (by decide)]
    norm_num
  · rw [hvals, hgaA, hgaB]
    rw [show periodA.startDate = 0 from rfl, show periodA.endDate = 6 from rfl,
        show periodB.startDate = 7 from rfl, show periodB.endDate = 20 from rfl]
    rw [hwA, hwB]
    unfold combined_value
    rw [if_pos rfl]
    norm_num

/-- C6 witness: the Combined rules at the concrete value list [100, 300]. -/
theorem combined_value_spec_witness :
    (([100, 300] : List Rat) ≠ []) ∧
      (combined_value sumMethod [100, 300] = ([100, 300] : List Rat).sum
        ∧ combined_value averageMethod [100, 300]
            = ([100, 300] : List Rat).sum / (([100, 300] : List Rat).length : Rat)
        ∧ combined_value averageMethod [100, 300] = 200
        ∧ combined_value sumMethod [100, 300] = 400
        ∧ campaign_values sampleGA "East" [periodA, periodB] averageMethod = [100, 300]
        ∧ combined_value averageMethod (campaign_values sampleGA "East" [periodA, periodB] averageMethod)
            ≠ (gaTotalSum sampleGA "East" periodA + gaTotalSum sampleGA "East" periodB)
              / ((calculate_weeks_in_period periodA.startDate periodA.endDate
                  + calculate_weeks_in_period periodB.startDate periodB.endDate : Int) : Rat)) :=
  ⟨by simp, combined_value_spec [100, 300] (by simp)⟩

/-- Scanning up to the first occurrence of a delimiter returns the prefix
before it and the suffix after it. -/
theorem takeUntil_append (stop : Char) (xs rest : List Char) (h : stop ∉ xs) :
    takeUntil stop (xs ++ stop :: rest) = some (xs, rest) := by
  induction xs with
  | nil => simp [takeUntil]
  | cons c cs ih =>
    have hcne : ¬ c = stop := fun hq => h (by simp [hq])
    have hcs : stop ∉ cs := fun hm => h (List.mem_cons_of_mem _ hm)
    simp [takeUntil, hcne, ih hcs]

/-- A fragment interpolated from a quote-free column name and a quote-free
label parses back to exactly that column and that label. -/
theorem parse_build (col label : List Char) (hc : dqChar ∉ col)
    (hl : sqChar ∉ label) :
    parseRegionEq (regionFilterChars col label) = some (col, label) := by
  have hshape : regionFilterChars col label
      = dqChar :: (col ++ dqChar ::
          (Char.ofNat 32 :: Char.ofNat 61 :: Char.ofNat 32 :: sqChar ::
            (label ++ sqChar :: []))) := by
    simp [regionFilterChars]
  rw [hshape]
  simp [parseRegionEq, takeUntil_append dqChar col _ hc,
    takeUntil_append sqChar label [] hl]

/-- C7 (amended): for a configured column name without a double quote and a
region label without a single quote, executing the interpolated WHERE
fragment selects exactly the rows whose region equals the label character
for character; a label containing a quote character changes the generated
query text so that it no longer parses as that equality (see the
counterexample). -/
theorem region_filter_exact_match (col label : List Char) (hc : dqChar ∉ col)
    (hl : sqChar ∉ label) (tbl : List GARow) :
    runRegionFilter (regionFilterChars col label) tbl
      = some (tbl.filter fun r => r.region == String.mk label) := by
  unfold runRegionFilter
  rw [parse_build col label hc hl]

/-- C7 counterexample: the region label x'y (which contains a single-quote
character) makes the interpolated fragment "R" = 'x'y' fail to parse as an
equality filter — a query error, not the exact-match selection the claim
asserts for every label. -/
theorem region_filter_quote_counterexample :
    runRegionFilter
        (regionFilterChars [Char.ofNat 82] [Char.ofNat 120, sqChar, Char.ofNat 121])
        sampleGA = none
  ∧ runRegionFilter
        (regionFilterChars [Char.ofNat 82] [Char.ofNat 120, sqChar, Char.ofNat 121])
        sampleGA
      ≠ some (sampleGA.filter fun r =>
          r.region == String.mk [Char.ofNat 120, sqChar, Char.ofNat 121]) := by
  constructor
  · decide
  · decide

/-- C7 witness: the quote-free column R and label E select exactly the
matching rows of the sample table. -/
theorem region_filter_exact_match_witness :
    (dqChar ∉ ([Char.ofNat 82] : List Char))
  ∧ (sqChar ∉ ([Char.ofNat 69] : List Char))
  ∧ runRegionFilter (regionFilterChars [Char.ofNat 82] [Char.ofNat 69]) sampleGA
      = some (sampleGA.filter fun r => r.region == String.mk [Char.ofNat 69]) :=
  ⟨by decide, by decide,
    region_filter_exact_match [Char.ofNat 82] [Char.ofNat 69]
      (by decide) (by decide) sampleGA⟩
